import Mathlib

/-!
Verification of the round-robin HTTP load balancer (`main.go` and its
statistics-tracking variant) against its specification.

The repository contains two variants of the program:

* the base variant (`src/main.go`): `LoadBalancer.current` is left at Go's
  zero value `0` at construction, there is no explicit empty-registry check
  in `NextServer` (the scan loop simply runs zero times), no statistics, and
  `ScheduleHealthChecks` runs `HealthCheck` only on ticker events;
* the statistics variant (`src/unnamed/part_000`): `current` is initialized
  to `-1`, `NextServer` has an explicit `serverCount == 0` early return
  (behaviourally identical to the zero-iteration loop), `ServeHTTP`
  intercepts `/lb-stats` and maintains `totalRequests` / `serverStats`, and
  `ScheduleHealthChecks` runs one immediate `HealthCheck` cycle before the
  ticker loop.

The embedding below uses a single `LoadBalancer` structure (the union of the
fields used by the claims); the construction of each variant is captured by
`mkLoadBalancerBase` and `mkLoadBalancerStats`.  The Go rotation cursor is a
Go `int`, embedded as `Int`, and Go's `%` (truncated remainder) is `Int.tmod`.
Network effects are embedded as explicit outcome parameters: `ServeHTTP`
takes a `transport` oracle mapping the outbound request it builds to the
transport result, and `HealthCheck` takes the list of probe outcomes.
-/

namespace MyOwnLB

/-- String constant for the stats endpoint path `/lb-stats`. -/
def statsPath : String := "/lb-stats"

/-- `Server` (both variants): one upstream target.  The Go struct carries a
`*url.URL`; the claims only use its scheme and host components, which are
embedded as strings.  The `sync.RWMutex` guards concurrent access in Go and
has no sequential content, so it is not part of the state. -/
structure Server where
  scheme : String
  host : String
  alive : Bool
  deriving Repr, DecidableEq, Inhabited

/-- `Server.SetAlive`: unconditionally overwrite the liveness flag. -/
def Server.SetAlive (s : Server) (b : Bool) : Server :=
  { s with alive := b }

/-- `Server.IsAlive`: read the liveness flag. -/
def Server.IsAlive (s : Server) : Bool :=
  s.alive

/-- `LoadBalancer`: union of the fields of the two variants.  The base
variant never touches `serverStats` / `totalRequests`.  `current` is a Go
`int`, embedded as `Int` (it is initialized to `-1` in the stats variant). -/
structure LoadBalancer where
  servers : List Server
  current : Int
  healthCheckPath : String
  serverStats : List (String × Nat)
  totalRequests : Nat
  deriving Repr, DecidableEq, Inhabited

/-- Liveness test `lb.servers[i].IsAlive()` at an index that may be out of
range (out-of-range reads do not occur on the reachable states; `false` is
the junk value). -/
def aliveAt (servers : List Server) (i : Nat) : Bool :=
  match servers.get? i with
  | some s => s.IsAlive
  | none => false

/-- The scan loop of `NextServer` (identical in both variants):

```go
for i := 0; i < serverCount; i++ {
    lb.current = (lb.current + 1) % serverCount
    if lb.servers[lb.current].IsAlive() {
        return lb.servers[lb.current]
    }
}
return nil
```

`fuel` is the number of remaining iterations (`serverCount - i`).  The result
is `(selected index or none, final cursor, number of iterations executed)`;
the iteration count records how far the cursor advanced. -/
def nextServerAux (servers : List Server) : Int → Nat → Option Nat × Int × Nat
  | cur, 0 => (none, cur, 0)
  | cur, fuel + 1 =>
    let cur2 : Int := (cur + 1).tmod (servers.length : Int)
    if aliveAt servers cur2.toNat then
      (some cur2.toNat, cur2, 1)
    else
      let r := nextServerAux servers cur2 fuel
      (r.1, r.2.1, r.2.2 + 1)

/-- `NextServer`: run the scan loop for `serverCount` iterations, returning
the selected index (Go returns the `*Server` pointer; the index identifies
it) and the mutated load balancer.  The stats variant's explicit
`serverCount == 0` early return coincides with the zero-fuel case. -/
def NextServer (lb : LoadBalancer) : Option Nat × LoadBalancer :=
  let r := nextServerAux lb.servers lb.current lb.servers.length
  (r.1, { lb with current := r.2.1 })

/-- Number of loop iterations one `NextServer` call executes, i.e. how many
positions the call advances the rotation cursor. -/
def nextServerSteps (lb : LoadBalancer) : Nat :=
  (nextServerAux lb.servers lb.current lb.servers.length).2.2

/-- Results of `k` consecutive `NextServer` calls, in order. -/
def runResults (lb : LoadBalancer) : Nat → List (Option Nat)
  | 0 => []
  | k + 1 => (NextServer lb).1 :: runResults (NextServer lb).2 k

/-- An inbound HTTP request as `ServeHTTP` consumes it: method, URL path,
raw query string, flattened header (name, value) pairs, and body. -/
structure HttpRequest where
  method : String
  path : String
  rawQuery : String
  headers : List (String × String)
  body : String
  deriving Repr, DecidableEq, Inhabited

/-- An HTTP response: status code, flattened header pairs, body. -/
structure HttpResponse where
  statusCode : Nat
  headers : List (String × String)
  body : String
  deriving Repr, DecidableEq, Inhabited

/-- The outbound request `ServeHTTP` builds with `http.NewRequest` plus the
header-copy loop: target URL components, method, headers, body. -/
structure OutboundRequest where
  scheme : String
  host : String
  path : String
  rawQuery : String
  method : String
  headers : List (String × String)
  body : String
  deriving Repr, DecidableEq, Inhabited

/-- Outcome of `client.Do(req)`: transport error (with its message) or a
backend response. -/
inductive TransportResult where
  | failure (msg : String)
  | success (resp : HttpResponse)
  deriving Repr, DecidableEq, Inhabited

/-- Lines 102-122 of the stats variant (77-97 of the base variant): the
target URL is the selected server's URL with path and raw query overwritten
from the inbound request; `http.NewRequest` copies method and body; the
header loop `req.Header.Add(name, value)` appends every inbound header pair
into the (empty) outbound header set. -/
def buildOutbound (server : Server) (r : HttpRequest) : OutboundRequest :=
  { scheme := server.scheme
    host := server.host
    path := r.path
    rawQuery := r.rawQuery
    method := r.method
    headers := r.headers
    body := r.body }

/-- Go's `lb.serverStats[host]++` on a map embedded as an association list:
increment the entry for `host`, treating a missing key as `0`. -/
def bumpStat (stats : List (String × Nat)) (host : String) : List (String × Nat) :=
  match stats with
  | [] => [(host, 1)]
  | (h, c) :: rest =>
    if h = host then (h, c + 1) :: rest else (h, c) :: bumpStat rest host

/-- `handleStats` (stats variant only): writes a plain-text report and
mutates nothing.  The report text (printf formatting with float
percentages) is abstracted; no claim depends on it. -/
def handleStats (_lb : LoadBalancer) : HttpResponse :=
  { statusCode := 200, headers := [], body := "" }

/-- Result of one `ServeHTTP` invocation: the response written to the
caller, the mutated load balancer, and the trace of outbound requests the
handler sent to backends (so retry behaviour is observable). -/
structure DispatchResult where
  response : HttpResponse
  lb : LoadBalancer
  outboundCalls : List OutboundRequest
  deriving Repr, DecidableEq, Inhabited

/-- Bad-gateway response `http.Error(w, err.Error(), http.StatusBadGateway)`. -/
def badGatewayResponse (msg : String) : HttpResponse :=
  { statusCode := 502, headers := [], body := msg }

/-- Service-unavailable response `http.Error(w, "No available servers", 503)`. -/
def noServersResponse : HttpResponse :=
  { statusCode := 503, headers := [], body := "No available servers" }

/-- `ServeHTTP` (stats variant; the base variant lacks the `/lb-stats`
intercept and the stats update, and is otherwise identical on this model):

1. intercept `/lb-stats`;
2. `NextServer`; on `nil`, 503 and return;
3. increment `totalRequests` and the selected server's `serverStats` entry;
4. build the outbound request and send it once through `transport`;
5. transport failure: 502; success: copy headers, status code and body of
   the backend response to the caller.

The body-copy error path after the status is committed (`io.Copy` failure)
is not modelled; no claim concerns it.  `http.NewRequest` cannot fail on
this embedding's well-formed data, so its 500 branch is unreachable. -/
def ServeHTTP (lb : LoadBalancer) (r : HttpRequest)
    (transport : OutboundRequest → TransportResult) : DispatchResult :=
  if r.path = statsPath then
    { response := handleStats lb, lb := lb, outboundCalls := [] }
  else
    match NextServer lb with
    | (none, lb1) =>
      { response := noServersResponse, lb := lb1, outboundCalls := [] }
    | (some i, lb1) =>
      let server := lb1.servers.getD i default
      let lb2 := { lb1 with
        totalRequests := lb1.totalRequests + 1
        serverStats := bumpStat lb1.serverStats server.host }
      let req := buildOutbound server r
      match transport req with
      | TransportResult.failure msg =>
        { response := badGatewayResponse msg, lb := lb2, outboundCalls := [req] }
      | TransportResult.success resp =>
        { response :=
            { statusCode := resp.statusCode, headers := resp.headers, body := resp.body }
          lb := lb2, outboundCalls := [req] }

/-- Outcome of one health probe `http.Get(serverURL.String())`. -/
inductive ProbeOutcome where
  | transportFailure
  | response (statusCode : Nat)
  deriving Repr, DecidableEq, Inhabited

/-- One iteration of the `HealthCheck` loop for one server: a transport
error marks it dead, a 200 response marks it alive, any other status marks
it dead. -/
def healthCheckServer (server : Server) (o : ProbeOutcome) : Server :=
  match o with
  | ProbeOutcome.transportFailure => server.SetAlive false
  | ProbeOutcome.response code =>
    if code = 200 then server.SetAlive true else server.SetAlive false

/-- `HealthCheck`: one probe cycle over all servers, with `outcomes` the
per-server probe outcomes for this cycle. -/
def HealthCheck (servers : List Server) (outcomes : List ProbeOutcome) : List Server :=
  List.zipWith healthCheckServer servers outcomes

/-- A probe cycle applied to the load balancer: only the servers' liveness
flags change. -/
def HealthCheckLB (lb : LoadBalancer) (outcomes : List ProbeOutcome) : LoadBalancer :=
  { lb with servers := HealthCheck lb.servers outcomes }

/-- `ScheduleHealthChecks` of the base variant: the goroutine runs
`HealthCheck` only inside `select { case <-ticker.C: ... }`, so after
`ticks` ticker events have fired it has run exactly `ticks` cycles — in
particular zero cycles before the first interval elapses. -/
def scheduleHealthChecksCyclesBase (ticks : Nat) : Nat :=
  ticks

/-- `ScheduleHealthChecks` of the stats variant: the goroutine runs one
immediate `lb.HealthCheck()` before entering `for range ticker.C`, so after
`ticks` ticker events it has run `ticks + 1` cycles. -/
def scheduleHealthChecksCyclesStats (ticks : Nat) : Nat :=
  ticks + 1

/-- Construction of the base variant's `LoadBalancer` in `main`: the
`current` field is omitted from the composite literal, so it is Go's zero
value `0`.  (The stats fields are unused by this variant.) -/
def mkLoadBalancerBase (servers : List Server) (path : String) : LoadBalancer :=
  { servers := servers
    current := 0
    healthCheckPath := path
    serverStats := []
    totalRequests := 0 }

/-- Construction of the stats variant's `LoadBalancer` in `main`:
`current: -1`, empty stats map, zero total. -/
def mkLoadBalancerStats (servers : List Server) (path : String) : LoadBalancer :=
  { servers := servers
    current := -1
    healthCheckPath := path
    serverStats := []
    totalRequests := 0 }

/-- Sum of the per-server request counters. -/
def sumStats (stats : List (String × Nat)) : Nat :=
  (stats.map Prod.snd).sum

/-- The stats invariant: the total request counter equals the sum of the
per-server counters. -/
def StatsInv (lb : LoadBalancer) : Prop :=
  lb.totalRequests = sumStats lb.serverStats

/-! ## Proof-side recasting of the scan loop

`nextServerAuxN` is the scan loop with the cursor tracked as a natural
number; `nextServerAux_natCast` and `nextServerAux_neg_one` relate it to the
`Int`-cursor model on the cursor values the program reaches (`-1` or a
non-negative value). -/

/-- The scan loop with a `Nat` cursor (proof helper; see the bridge lemmas). -/
def nextServerAuxN (servers : List Server) : Nat → Nat → Option Nat × Nat × Nat
  | c, 0 => (none, c, 0)
  | c, fuel + 1 =>
    let c2 := (c + 1) % servers.length
    if aliveAt servers c2 then
      (some c2, c2, 1)
    else
      let r := nextServerAuxN servers c2 fuel
      (r.1, r.2.1, r.2.2 + 1)

lemma nextServerAux_natCast (servers : List Server) (fuel : Nat) :
    ∀ c : Nat, nextServerAux servers (c : Int) fuel =
      ((nextServerAuxN servers c fuel).1,
       ((nextServerAuxN servers c fuel).2.1 : Int),
       (nextServerAuxN servers c fuel).2.2) := by
  induction fuel with
  | zero => intro c; rfl
  | succ f ih =>
    intro c
    have hcast : ((c : Int) + 1).tmod (servers.length : Int)
        = (((c + 1) % servers.length : Nat) : Int) := by
      rw [Int.ofNat_tmod]
      norm_cast
    simp only [nextServerAux, nextServerAuxN]
    rw [hcast, Int.toNat_natCast]
    by_cases h : aliveAt servers ((c + 1) % servers.length)
    · rw [if_pos h, if_pos h]
    · rw [if_neg h, if_neg h, ih ((c + 1) % servers.length)]

lemma nextServerAux_neg_one (servers : List Server) (hn : 0 < servers.length)
    (fuel : Nat) :
    nextServerAux servers (-1) (fuel + 1)
      = nextServerAux servers ((servers.length - 1 : Nat) : Int) (fuel + 1) := by
  have h1 : ((-1 : Int) + 1).tmod (servers.length : Int) = 0 := by
    norm_num
  have h2 : (((servers.length - 1 : Nat) : Int) + 1).tmod (servers.length : Int) = 0 := by
    have e : ((servers.length - 1 : Nat) : Int) + 1 = (servers.length : Int) := by
      omega
    rw [e, Int.tmod_self]
  simp only [nextServerAux, h1, h2]

/-! ## Liveness-lookup helper lemmas -/

lemma aliveAt_eq_false (servers : List Server)
    (hdead : ∀ s ∈ servers, s.alive = false) (k : Nat) :
    aliveAt servers k = false := by
  unfold aliveAt
  cases h : servers.get? k with
  | none => rfl
  | some s => simpa [Server.IsAlive] using hdead s (List.get?_mem h)

lemma lt_length_of_aliveAt (servers : List Server) (k : Nat)
    (h : aliveAt servers k = true) : k < servers.length := by
  by_contra hk
  unfold aliveAt at h
  rw [List.get?_eq_none.mpr (by omega)] at h
  simp at h

lemma aliveAt_eq_true (servers : List Server)
    (halive : ∀ s ∈ servers, s.alive = true) (k : Nat) (hk : k < servers.length) :
    aliveAt servers k = true := by
  unfold aliveAt
  cases h : servers.get? k with
  | none =>
    rw [List.get?_eq_none] at h
    omega
  | some s => simpa [Server.IsAlive] using halive s (List.get?_mem h)

lemma alive_false_of_forall_aliveAt (servers : List Server)
    (h : ∀ j, j < servers.length → aliveAt servers j = false) :
    ∀ s ∈ servers, s.alive = false := by
  intro s hs
  obtain ⟨j, hj⟩ := List.mem_iff_get?.mp hs
  have hjlen : j < servers.length := by
    by_contra hc
    rw [List.get?_eq_none.mpr (by omega)] at hj
    exact Option.noConfusion hj
  have hfalse := h j hjlen
  unfold aliveAt at hfalse
  rw [hj] at hfalse
  simpa [Server.IsAlive] using hfalse

/-! ## Behaviour of the scan loop -/

lemma nextServerAuxN_first_hit (servers : List Server) :
    ∀ (d fuel c : Nat), d + 1 ≤ fuel →
      (∀ u, 1 ≤ u → u ≤ d → aliveAt servers ((c + u) % servers.length) = false) →
      aliveAt servers ((c + (d + 1)) % servers.length) = true →
      nextServerAuxN servers c fuel
        = (some ((c + (d + 1)) % servers.length), (c + (d + 1)) % servers.length, d + 1) := by
  intro d
  induction d with
  | zero =>
    intro fuel c hf _ hhit
    obtain ⟨f, rfl⟩ : ∃ f, fuel = f + 1 := ⟨fuel - 1, by omega⟩
    have e : c + (0 + 1) = c + 1 := rfl
    rw [e] at hhit
    simp only [nextServerAuxN]
    rw [if_pos hhit]
  | succ d ih =>
    intro fuel c hf hmiss hhit
    obtain ⟨f, rfl⟩ : ∃ f, fuel = f + 1 := ⟨fuel - 1, by omega⟩
    have hm1 : aliveAt servers ((c + 1) % servers.length) = false :=
      hmiss 1 (by omega) (by omega)
    simp only [nextServerAuxN]
    rw [if_neg (by simp [hm1])]
    have ihr := ih f ((c + 1) % servers.length) (by omega)
      (fun u hu1 hud => by
        rw [Nat.mod_add_mod]
        have e : c + 1 + u = c + (u + 1) := by omega
        rw [e]
        exact hmiss (u + 1) (by omega) (by omega))
      (by
        rw [Nat.mod_add_mod]
        have e : c + 1 + (d + 1) = c + (d + 1 + 1) := by omega
        rw [e]
        exact hhit)
    rw [ihr]
    have e2 : ((c + 1) % servers.length + (d + 1)) % servers.length
        = (c + (d + 1 + 1)) % servers.length := by
      rw [Nat.mod_add_mod]
      congr 1
      omega
    rw [e2]

lemma nextServerAuxN_found (servers : List Server) :
    ∀ fuel c i, (nextServerAuxN servers c fuel).1 = some i →
      (nextServerAuxN servers c fuel).2.1 = i ∧ aliveAt servers i = true := by
  intro fuel
  induction fuel with
  | zero =>
    intro c i h
    simp [nextServerAuxN] at h
  | succ f ih =>
    intro c i h
    simp only [nextServerAuxN] at h ⊢
    by_cases hal : aliveAt servers ((c + 1) % servers.length)
    · rw [if_pos hal] at h ⊢
      simp only at h
      obtain rfl : (c + 1) % servers.length = i := Option.some.inj h
      exact ⟨rfl, hal⟩
    · rw [if_neg hal] at h ⊢
      exact ih ((c + 1) % servers.length) i h

lemma nextServerAuxN_none_probes (servers : List Server) :
    ∀ fuel c, (nextServerAuxN servers c fuel).1 = none →
      ∀ t, 1 ≤ t → t ≤ fuel → aliveAt servers ((c + t) % servers.length) = false := by
  intro fuel
  induction fuel with
  | zero =>
    intro c _ t h1 h2
    omega
  | succ f ih =>
    intro c h t h1 h2
    simp only [nextServerAuxN] at h
    by_cases hal : aliveAt servers ((c + 1) % servers.length)
    · rw [if_pos hal] at h
      simp at h
    · rw [if_neg hal] at h
      simp only at h
      rcases Nat.eq_or_lt_of_le h1 with he | hlt
      · rw [← he]
        simpa using hal
      · have hrec := ih ((c + 1) % servers.length) h (t - 1) (by omega) (by omega)
        rw [Nat.mod_add_mod] at hrec
        have e : c + 1 + (t - 1) = c + t := by omega
        rw [e] at hrec
        exact hrec

lemma nextServerAuxN_none_cursor (servers : List Server) :
    ∀ fuel c, 1 ≤ fuel → (nextServerAuxN servers c fuel).1 = none →
      (nextServerAuxN servers c fuel).2.1 = (c + fuel) % servers.length := by
  intro fuel
  induction fuel with
  | zero =>
    intro c h
    omega
  | succ f ih =>
    intro c _ h
    simp only [nextServerAuxN] at h ⊢
    by_cases hal : aliveAt servers ((c + 1) % servers.length)
    · rw [if_pos hal] at h
      simp at h
    · rw [if_neg hal] at h ⊢
      simp only at h ⊢
      cases f with
      | zero => simp [nextServerAuxN]
      | succ g =>
        rw [ih ((c + 1) % servers.length) (by omega) h, Nat.mod_add_mod]
        congr 1
        omega

lemma nextServerAuxN_none_steps (servers : List Server) :
    ∀ fuel c, (nextServerAuxN servers c fuel).1 = none →
      (nextServerAuxN servers c fuel).2.2 = fuel := by
  intro fuel
  induction fuel with
  | zero =>
    intro c _
    rfl
  | succ f ih =>
    intro c h
    simp only [nextServerAuxN] at h ⊢
    by_cases hal : aliveAt servers ((c + 1) % servers.length)
    · rw [if_pos hal] at h
      simp at h
    · rw [if_neg hal] at h ⊢
      simp only at h ⊢
      rw [ih ((c + 1) % servers.length) h]

lemma nextServerAuxN_allDead (servers : List Server)
    (hdead : ∀ s ∈ servers, s.alive = false) :
    ∀ fuel c, (nextServerAuxN servers c fuel).1 = none := by
  intro fuel
  induction fuel with
  | zero =>
    intro c
    rfl
  | succ f ih =>
    intro c
    simp only [nextServerAuxN]
    rw [if_neg (by simp [aliveAt_eq_false servers hdead])]
    exact ih ((c + 1) % servers.length)

/-! ## Modular arithmetic helpers -/

lemma mod_coverage (n c j : Nat) (hc : c < n) (hj : j < n) :
    ∃ t, 1 ≤ t ∧ t ≤ n ∧ (c + t) % n = j := by
  by_cases h : c < j
  · refine ⟨j - c, by omega, by omega, ?_⟩
    have e : c + (j - c) = j := by omega
    rw [e, Nat.mod_eq_of_lt hj]
  · refine ⟨n - c + j, by omega, by omega, ?_⟩
    have e : c + (n - c + j) = n + j := by omega
    rw [e, Nat.add_mod_left, Nat.mod_eq_of_lt hj]

lemma mod_shift_ne (n a d : Nat) (hd1 : 1 ≤ d) (hdn : d < n) :
    (a + d) % n ≠ a % n := by
  have hn : 0 < n := by omega
  have ha : a % n < n := Nat.mod_lt a hn
  intro h
  rw [Nat.add_mod, Nat.mod_eq_of_lt hdn] at h
  rcases Nat.lt_or_ge (a % n + d) n with hlt | hge
  · rw [Nat.mod_eq_of_lt hlt] at h
    omega
  · rw [Nat.mod_eq_sub_mod hge, Nat.mod_eq_of_lt (by omega)] at h
    omega

/-! ## `NextServer`-level bridge lemmas -/

lemma nextServer_preserves_servers (lb : LoadBalancer) :
    (NextServer lb).2.servers = lb.servers := rfl

lemma nextServer_parts (lb : LoadBalancer) (c : Nat) (hc : lb.current = (c : Int)) :
    (NextServer lb).1 = (nextServerAuxN lb.servers c lb.servers.length).1
  ∧ (NextServer lb).2.current
      = ((nextServerAuxN lb.servers c lb.servers.length).2.1 : Int)
  ∧ nextServerSteps lb = (nextServerAuxN lb.servers c lb.servers.length).2.2 := by
  unfold NextServer nextServerSteps
  rw [hc, nextServerAux_natCast lb.servers lb.servers.length c]
  exact ⟨rfl, rfl, rfl⟩

lemma nextServer_parts_neg_one (lb : LoadBalancer) (hc : lb.current = -1)
    (hn : 0 < lb.servers.length) :
    (NextServer lb).1
      = (nextServerAuxN lb.servers (lb.servers.length - 1) lb.servers.length).1
  ∧ (NextServer lb).2.current
      = ((nextServerAuxN lb.servers (lb.servers.length - 1) lb.servers.length).2.1 : Int)
  ∧ nextServerSteps lb
      = (nextServerAuxN lb.servers (lb.servers.length - 1) lb.servers.length).2.2 := by
  obtain ⟨f, hf⟩ : ∃ f, lb.servers.length = f + 1 := ⟨lb.servers.length - 1, by omega⟩
  have key : nextServerAux lb.servers (-1) lb.servers.length
      = ((nextServerAuxN lb.servers (lb.servers.length - 1) lb.servers.length).1,
         ((nextServerAuxN lb.servers (lb.servers.length - 1) lb.servers.length).2.1 : Int),
         (nextServerAuxN lb.servers (lb.servers.length - 1) lb.servers.length).2.2) := by
    conv_lhs => rw [hf]
    rw [nextServerAux_neg_one lb.servers hn f, ← hf,
      nextServerAux_natCast lb.servers lb.servers.length (lb.servers.length - 1)]
  unfold NextServer nextServerSteps
  rw [hc, key]
  exact ⟨rfl, rfl, rfl⟩

lemma nextServer_to_auxN (lb : LoadBalancer) (hn : 0 < lb.servers.length)
    (hcur : -1 ≤ lb.current) :
    ∃ c : Nat,
      (NextServer lb).1 = (nextServerAuxN lb.servers c lb.servers.length).1
      ∧ (NextServer lb).2.current
          = ((nextServerAuxN lb.servers c lb.servers.length).2.1 : Int)
      ∧ nextServerSteps lb = (nextServerAuxN lb.servers c lb.servers.length).2.2 := by
  rcases (by omega : lb.current = -1 ∨ 0 ≤ lb.current) with hc | hc
  · exact ⟨lb.servers.length - 1, nextServer_parts_neg_one lb hc hn⟩
  · exact ⟨lb.current.toNat,
      nextServer_parts lb lb.current.toNat (Int.toNat_of_nonneg hc).symm⟩

/-! ## Concrete fixtures used by witnesses and counterexamples -/

def serverH0 : Server := { scheme := "http", host := "h0", alive := true }

def serverH1 : Server := { scheme := "http", host := "h1", alive := true }

def serverH2 : Server := { scheme := "http", host := "h2", alive := true }

def servers3 : List Server := [serverH0, serverH1, serverH2]

def rootPath : String := "/"

def reqSample : HttpRequest :=
  { method := "GET"
    path := "/res"
    rawQuery := "a=1&a=2"
    headers := [("Accept", "text/html"), ("X-Tag", "u"), ("X-Tag", "v")]
    body := "payload" }

def msgRefused : String := "connection refused"

def serverH0Dead : Server := { scheme := "http", host := "h0", alive := false }

def serverH1Dead : Server := { scheme := "http", host := "h1", alive := false }

def serverH2Dead : Server := { scheme := "http", host := "h2", alive := false }

def lbEmpty : LoadBalancer := mkLoadBalancerStats [] rootPath

def lbBase3 : LoadBalancer := mkLoadBalancerBase servers3 rootPath

def lbStats3 : LoadBalancer := mkLoadBalancerStats servers3 rootPath

def lbSkip : LoadBalancer :=
  { servers := [serverH0, serverH1Dead, serverH2]
    current := 0
    healthCheckPath := rootPath
    serverStats := []
    totalRequests := 0 }

def lbOneAlive : LoadBalancer :=
  { servers := [serverH0Dead, serverH1, serverH2Dead]
    current := 1
    healthCheckPath := rootPath
    serverStats := []
    totalRequests := 0 }

/-! ## Claims about `NextServer` -/

/-- Claim C2: `NextServer` returns `none` exactly when the registry is empty
or every backend is currently dead; in particular, on a registry of size
zero it returns `none` immediately.  The hypothesis `-1 ≤ current` covers
the initial cursor of both variants and every reachable cursor value. -/
theorem nextServer_none_iff (lb : LoadBalancer) (hcur : -1 ≤ lb.current) :
    (NextServer lb).1 = none ↔ (lb.servers = [] ∨ ∀ s ∈ lb.servers, s.alive = false) := by
  rcases Nat.eq_zero_or_pos lb.servers.length with hlen | hlen
  · have hnil : lb.servers = [] := List.length_eq_zero.mp hlen
    constructor
    · intro _
      exact Or.inl hnil
    · intro _
      unfold NextServer
      rw [hlen]
      rfl
  · obtain ⟨c, h1, _, _⟩ := nextServer_to_auxN lb hlen hcur
    rw [h1]
    constructor
    · intro hnone
      refine Or.inr (alive_false_of_forall_aliveAt lb.servers ?_)
      intro j hj
      obtain ⟨t, ht1, htn, htj⟩ :=
        mod_coverage lb.servers.length (c % lb.servers.length) j (Nat.mod_lt c hlen) hj
      rw [Nat.mod_add_mod] at htj
      have hprobe :=
        nextServerAuxN_none_probes lb.servers lb.servers.length c hnone t ht1 htn
      rw [htj] at hprobe
      exact hprobe
    · intro hdead
      rcases hdead with hnil | hdead
      · rw [hnil] at hlen
        simp at hlen
      · exact nextServerAuxN_allDead lb.servers hdead lb.servers.length c

/-- Witness for C2: on the empty registry (size zero, cursor `-1` as
constructed by the stats variant's `main`), `NextServer` returns `none`. -/
theorem nextServer_none_iff_witness : (NextServer lbEmpty).1 = none :=
  (nextServer_none_iff lbEmpty (by decide)).mpr (Or.inl rfl)

/-- Claim C3: live-skip.  If the backend one past the cursor is dead and
the one two past the cursor is alive, the call returns the latter: the dead
backend is skipped and the following live backend is selected in ring
order. -/
theorem nextServer_live_skip (lb : LoadBalancer) (c : Nat)
    (hc : lb.current = (c : Int)) (hn : 2 ≤ lb.servers.length)
    (hdead1 : aliveAt lb.servers ((c + 1) % lb.servers.length) = false)
    (halive2 : aliveAt lb.servers ((c + 2) % lb.servers.length) = true) :
    (NextServer lb).1 = some ((c + 2) % lb.servers.length) := by
  obtain ⟨h1, _, _⟩ := nextServer_parts lb c hc
  rw [h1, nextServerAuxN_first_hit lb.servers 1 lb.servers.length c (by omega)
    (fun u hu1 hud => by
      have hu : u = 1 := by omega
      rw [hu]
      exact hdead1)
    (by
      have e : c + (1 + 1) = c + 2 := by omega
      rw [e]
      exact halive2)]

/-- Witness for C3, the spec's concrete scenario: a 3-backend ring with
index 1 dead and the others alive; the call whose round-robin turn lands on
index 1 (cursor at 0) returns the backend at index 2 instead. -/
theorem nextServer_live_skip_witness : (NextServer lbSkip).1 = some 2 :=
  nextServer_live_skip lbSkip 0 rfl (by decide) (by decide) (by decide)

/-- Claim C9: after any `NextServer` call on a non-empty registry — whether
it returns a backend or `none` — the cursor lies in `[0, N)`, and whenever a
backend is returned the cursor equals that backend's index; this holds even
though the cursor may start outside that range (e.g. initialized to `-1`). -/
theorem nextServer_cursor_invariant (lb : LoadBalancer)
    (hn : 0 < lb.servers.length) (hcur : -1 ≤ lb.current) :
    (0 ≤ (NextServer lb).2.current
        ∧ (NextServer lb).2.current < (lb.servers.length : Int))
  ∧ ∀ i, (NextServer lb).1 = some i → (NextServer lb).2.current = (i : Int) := by
  obtain ⟨c, h1, h2, _⟩ := nextServer_to_auxN lb hn hcur
  cases hres : (nextServerAuxN lb.servers c lb.servers.length).1 with
  | some i =>
    obtain ⟨hcur1, hal⟩ := nextServerAuxN_found lb.servers lb.servers.length c i hres
    have hi : i < lb.servers.length := lt_length_of_aliveAt lb.servers i hal
    refine ⟨?_, ?_⟩
    · rw [h2, hcur1]
      exact ⟨Int.natCast_nonneg i, by exact_mod_cast hi⟩
    · intro i2 hi2
      rw [h1, hres] at hi2
      obtain rfl := Option.some.inj hi2
      rw [h2, hcur1]
  | none =>
    have hcur1 := nextServerAuxN_none_cursor lb.servers lb.servers.length c (by omega) hres
    refine ⟨?_, ?_⟩
    · rw [h2, hcur1]
      have hmod : (c + lb.servers.length) % lb.servers.length < lb.servers.length :=
        Nat.mod_lt (c + lb.servers.length) hn
      exact ⟨Int.natCast_nonneg ((c + lb.servers.length) % lb.servers.length),
        by exact_mod_cast hmod⟩
    · intro i2 hi2
      rw [h1, hres] at hi2
      exact Option.noConfusion hi2

/-- Witness for C9 at the stats variant's initial state (cursor `-1`,
three live backends). -/
theorem nextServer_cursor_invariant_witness :
    (0 ≤ (NextServer lbStats3).2.current
        ∧ (NextServer lbStats3).2.current < (lbStats3.servers.length : Int))
  ∧ ∀ i, (NextServer lbStats3).1 = some i → (NextServer lbStats3).2.current = (i : Int) :=
  nextServer_cursor_invariant lbStats3 (by decide) (by decide)

/-! ## Round-robin cycle (C1) -/

lemma nextServer_step_allAlive (lb : LoadBalancer) (c : Nat)
    (hc : lb.current = (c : Int)) (hn : 0 < lb.servers.length)
    (halive : ∀ s ∈ lb.servers, s.alive = true) :
    (NextServer lb).1 = some ((c + 1) % lb.servers.length)
  ∧ (NextServer lb).2.current = (((c + 1) % lb.servers.length : Nat) : Int) := by
  have hhit : aliveAt lb.servers ((c + (0 + 1)) % lb.servers.length) = true := by
    have e : c + (0 + 1) = c + 1 := rfl
    rw [e]
    exact aliveAt_eq_true lb.servers halive ((c + 1) % lb.servers.length)
      (Nat.mod_lt (c + 1) hn)
  have hfh := nextServerAuxN_first_hit lb.servers 0 lb.servers.length c (by omega)
    (fun u hu1 hud => by omega) hhit
  obtain ⟨h1, h2, _⟩ := nextServer_parts lb c hc
  exact ⟨by rw [h1, hfh], by rw [h2, hfh]⟩

lemma runResults_allAlive (servers : List Server) (hn : 0 < servers.length)
    (halive : ∀ s ∈ servers, s.alive = true) :
    ∀ (k : Nat) (lb : LoadBalancer) (c : Nat), lb.servers = servers →
      lb.current = (c : Int) →
      runResults lb k
        = (List.range k).map (fun i => some ((c + i + 1) % servers.length)) := by
  intro k
  induction k with
  | zero =>
    intro lb c _ _
    rfl
  | succ k ih =>
    intro lb c hs hc
    have hns : 0 < lb.servers.length := by
      rw [hs]
      exact hn
    have hal : ∀ s ∈ lb.servers, s.alive = true := by
      rw [hs]
      exact halive
    obtain ⟨h1, h2⟩ := nextServer_step_allAlive lb c hc hns hal
    rw [hs] at h1 h2
    have hs2 : (NextServer lb).2.servers = servers := by
      rw [nextServer_preserves_servers]
      exact hs
    have hrec := ih (NextServer lb).2 ((c + 1) % servers.length) hs2 h2
    show (NextServer lb).1 :: runResults (NextServer lb).2 k = _
    rw [h1, hrec, List.range_succ_eq_map, List.map_cons, List.map_map]
    congr 1
    apply List.map_congr_left
    intro i _
    simp only [Function.comp]
    congr 1
    rw [Nat.add_assoc, Nat.mod_add_mod]
    congr 1
    omega

lemma range_map_succ_mod_perm (n : Nat) (_hn : 0 < n) :
    ((List.range n).map (fun k => (k + 1) % n)).Perm (List.range n) := by
  have hrot : (List.range n).map (fun k => (k + 1) % n) = (List.range n).rotate 1 := by
    apply List.ext_get
    · simp
    · intro i h1 h2
      rw [List.get_map, List.get_rotate]
      rw [List.get_range, List.get_range]
      simp
  rw [hrot]
  exact List.rotate_perm (List.range n) 1

lemma range_map_comp_some (n : Nat) :
    (List.range n).map (fun k => some ((k + 1) % n))
      = ((List.range n).map (fun k => (k + 1) % n)).map some := by
  rw [List.map_map]
  rfl

lemma nodup_some_range (n : Nat) (hn : 0 < n) :
    ((List.range n).map (fun k => some ((k + 1) % n))).Nodup := by
  rw [range_map_comp_some]
  exact List.Nodup.map (fun a b h => Option.some.inj h)
    (((range_map_succ_mod_perm n hn).nodup_iff).mpr (List.nodup_range n))

lemma mem_some_range (n j : Nat) (hn : 0 < n) (hj : j < n) :
    some j ∈ (List.range n).map (fun k => some ((k + 1) % n)) := by
  rw [range_map_comp_some]
  exact List.mem_map_of_mem some
    (((range_map_succ_mod_perm n hn).mem_iff).mpr (List.mem_range.mpr hj))

/-- Claim C1: with `N ≥ 1` backends all alive and the base variant's
construction (cursor at Go's zero value `0`, the conceptual initial
position at index 0), `N` consecutive `NextServer` calls return the indices
`1, 2, …, N-1, 0` — each backend exactly once, in construction order
starting from index 1 — and the `(N+1)`-th call returns index 1 again. -/
theorem nextServer_round_robin_cycle (servers : List Server) (path : String)
    (hn : 1 ≤ servers.length) (halive : ∀ s ∈ servers, s.alive = true) :
    (runResults (mkLoadBalancerBase servers path) (servers.length + 1)
      = (List.range (servers.length + 1)).map (fun k => some ((k + 1) % servers.length)))
  ∧ ((runResults (mkLoadBalancerBase servers path) servers.length).Nodup
      ∧ ∀ j, j < servers.length →
          some j ∈ runResults (mkLoadBalancerBase servers path) servers.length)
  ∧ (2 ≤ servers.length →
      (runResults (mkLoadBalancerBase servers path) (servers.length + 1)).get?
          servers.length = some (some 1)) := by
  have hrun := runResults_allAlive servers (by omega) halive
  have h0 : (mkLoadBalancerBase servers path).servers = servers := rfl
  have hc0 : (mkLoadBalancerBase servers path).current = ((0 : Nat) : Int) := rfl
  have hshift : ∀ m : Nat,
      (List.range m).map (fun i => some ((0 + i + 1) % servers.length))
        = (List.range m).map (fun k => some ((k + 1) % servers.length)) := by
    intro m
    apply List.map_congr_left
    intro i _
    norm_num
  refine ⟨?_, ⟨?_, ?_⟩, ?_⟩
  · rw [hrun (servers.length + 1) (mkLoadBalancerBase servers path) 0 h0 hc0]
    exact hshift (servers.length + 1)
  · rw [hrun servers.length (mkLoadBalancerBase servers path) 0 h0 hc0,
      hshift servers.length]
    exact nodup_some_range servers.length (by omega)
  · intro j hj
    rw [hrun servers.length (mkLoadBalancerBase servers path) 0 h0 hc0,
      hshift servers.length]
    exact mem_some_range servers.length j (by omega) hj
  · intro h2n
    rw [hrun (servers.length + 1) (mkLoadBalancerBase servers path) 0 h0 hc0,
      List.get?_map, List.get?_range (by omega)]
    have e : (0 + servers.length + 1) % servers.length = 1 := by
      have e2 : 0 + servers.length + 1 = servers.length + 1 := by omega
      rw [e2, Nat.add_mod_left, Nat.mod_eq_of_lt (by omega)]
    rw [Option.map_some', e]

/-- Witness for C1 at a concrete 3-backend all-alive registry: the call
results are `[1, 2, 0, 1]`. -/
theorem nextServer_round_robin_cycle_witness :
    (runResults (mkLoadBalancerBase servers3 rootPath) (servers3.length + 1)
      = (List.range (servers3.length + 1)).map (fun k => some ((k + 1) % servers3.length)))
  ∧ ((runResults (mkLoadBalancerBase servers3 rootPath) servers3.length).Nodup
      ∧ ∀ j, j < servers3.length →
          some j ∈ runResults (mkLoadBalancerBase servers3 rootPath) servers3.length)
  ∧ (2 ≤ servers3.length →
      (runResults (mkLoadBalancerBase servers3 rootPath) (servers3.length + 1)).get?
          servers3.length = some (some 1)) :=
  nextServer_round_robin_cycle servers3 rootPath (by decide) (by decide)

/-! ## Cursor advancement per call (C8) -/

/-- Counterexample to C8 as stated: with three backends all alive and the
cursor at 0, one `NextServer` call executes a single loop iteration — the
loop returns as soon as it finds a live backend — so the cursor advances by
1 position, not by the full `N = 3`. -/
theorem nextServer_full_scan_counterexample :
    nextServerSteps lbBase3 = 1
  ∧ lbBase3.servers.length = 3
  ∧ nextServerSteps lbBase3 ≠ lbBase3.servers.length := by
  refine ⟨by decide, by decide, by decide⟩

/-- Claim C8 (amended): a `NextServer` call advances the cursor only up to
the first live backend it finds (the loop returns early), i.e. by `d + 1`
positions where `d` is the number of dead backends it skips; it advances the
full `N` positions exactly when no earlier probe hits: when every backend is
dead (leaving the cursor unchanged net), and when exactly one backend is
alive and the cursor already rests on it — the steady state after any
successful call, which is the situation in which the spec's
"one alive backend" sentence does hold. -/
theorem nextServer_cursor_advance (lb : LoadBalancer) (c : Nat)
    (hc : lb.current = (c : Int)) (hcn : c < lb.servers.length) :
    (∀ d, d + 1 ≤ lb.servers.length →
      (∀ u, 1 ≤ u → u ≤ d → aliveAt lb.servers ((c + u) % lb.servers.length) = false) →
      aliveAt lb.servers ((c + (d + 1)) % lb.servers.length) = true →
      nextServerSteps lb = d + 1
        ∧ (NextServer lb).1 = some ((c + (d + 1)) % lb.servers.length))
  ∧ ((∀ s ∈ lb.servers, s.alive = false) →
      nextServerSteps lb = lb.servers.length
        ∧ (NextServer lb).2.current = lb.current)
  ∧ ((∀ k, k < lb.servers.length → (aliveAt lb.servers k = true ↔ k = c)) →
      nextServerSteps lb = lb.servers.length
        ∧ (NextServer lb).1 = some c
        ∧ (NextServer lb).2.current = (c : Int)) := by
  obtain ⟨h1, h2, h3⟩ := nextServer_parts lb c hc
  have hn : 0 < lb.servers.length := by omega
  have hwrap : (c + lb.servers.length) % lb.servers.length = c := by
    rw [Nat.add_mod_right]
    exact Nat.mod_eq_of_lt hcn
  refine ⟨?_, ?_, ?_⟩
  · intro d hd hmiss hhit
    have hfh := nextServerAuxN_first_hit lb.servers d lb.servers.length c hd hmiss hhit
    exact ⟨by rw [h3, hfh], by rw [h1, hfh]⟩
  · intro hdead
    have hnone := nextServerAuxN_allDead lb.servers hdead lb.servers.length c
    refine ⟨by rw [h3, nextServerAuxN_none_steps lb.servers lb.servers.length c hnone], ?_⟩
    rw [h2, nextServerAuxN_none_cursor lb.servers lb.servers.length c (by omega) hnone,
      hwrap, hc]
  · intro hiff
    obtain ⟨d, hdlen⟩ : ∃ d, lb.servers.length = d + 1 := ⟨lb.servers.length - 1, by omega⟩
    have hmiss : ∀ u, 1 ≤ u → u ≤ d →
        aliveAt lb.servers ((c + u) % lb.servers.length) = false := by
      intro u hu1 hud
      by_contra hb
      rw [Bool.not_eq_false] at hb
      have hcu : (c + u) % lb.servers.length = c :=
        (hiff ((c + u) % lb.servers.length)
          (Nat.mod_lt (c + u) hn)).mp hb
      have hcmod : c % lb.servers.length = c := Nat.mod_eq_of_lt hcn
      exact mod_shift_ne lb.servers.length c u hu1 (by omega) (by rw [hcu, hcmod])
    have hhit : aliveAt lb.servers ((c + (d + 1)) % lb.servers.length) = true := by
      rw [← hdlen, hwrap]
      exact (hiff c hcn).mpr rfl
    have hfh := nextServerAuxN_first_hit lb.servers d lb.servers.length c
      (by omega) hmiss hhit
    have hres : (c + (d + 1)) % lb.servers.length = c := by
      rw [← hdlen, hwrap]
    refine ⟨by rw [h3, hfh, hdlen], ?_, ?_⟩
    · rw [h1, hfh, hres]
    · rw [h2, hfh]
      simp only at *
      rw [hres]

/-- Witness for C8 (amended), third case: three backends with only index 1
alive and the cursor resting on it; the call executes all 3 loop
iterations (full ring), returns index 1, and leaves the cursor at 1. -/
theorem nextServer_cursor_advance_witness :
    nextServerSteps lbOneAlive = lbOneAlive.servers.length
  ∧ (NextServer lbOneAlive).1 = some 1
  ∧ (NextServer lbOneAlive).2.current = ((1 : Nat) : Int) :=
  (nextServer_cursor_advance lbOneAlive 1 rfl (by decide)).2.2 (by decide)

/-! ## Health probing (C4, C5) -/

lemma healthCheck_get? :
    ∀ (servers : List Server) (outcomes : List ProbeOutcome) (i : Nat)
      (s : Server) (o : ProbeOutcome),
      servers.get? i = some s → outcomes.get? i = some o →
      (HealthCheck servers outcomes).get? i = some (healthCheckServer s o) := by
  intro servers
  induction servers with
  | nil =>
    intro outcomes i s o hs _
    simp at hs
  | cons a as ih =>
    intro outcomes i s o hs ho
    cases outcomes with
    | nil => simp at ho
    | cons b bs =>
      cases i with
      | zero =>
        simp only [List.get?] at hs ho
        obtain rfl := Option.some.inj hs
        obtain rfl := Option.some.inj ho
        rfl
      | succ i2 =>
        simp only [List.get?] at hs ho ⊢
        exact ih bs i2 s o hs ho

/-- Claim C4: one health probe sets a backend's liveness as a function of
the probe outcome alone — transport failure ⇒ dead, non-200 response ⇒
dead, 200 response ⇒ alive — regardless of the backend's previous liveness;
and the probe cycle `HealthCheck` applies exactly this update to every
backend. -/
theorem healthCheck_liveness_from_outcome :
    (∀ (s1 s2 : Server) (o : ProbeOutcome),
      (healthCheckServer s1 o).alive = (healthCheckServer s2 o).alive)
  ∧ (∀ s : Server, (healthCheckServer s ProbeOutcome.transportFailure).alive = false)
  ∧ (∀ (s : Server) (code : Nat), code ≠ 200 →
      (healthCheckServer s (ProbeOutcome.response code)).alive = false)
  ∧ (∀ s : Server, (healthCheckServer s (ProbeOutcome.response 200)).alive = true)
  ∧ (∀ (servers : List Server) (outcomes : List ProbeOutcome) (i : Nat)
      (s : Server) (o : ProbeOutcome),
      servers.get? i = some s → outcomes.get? i = some o →
      (HealthCheck servers outcomes).get? i = some (healthCheckServer s o)) := by
  refine ⟨?_, ?_, ?_, ?_, healthCheck_get?⟩
  · intro s1 s2 o
    cases o with
    | transportFailure => rfl
    | response code =>
      by_cases h : code = 200 <;> simp [healthCheckServer, Server.SetAlive, h]
  · intro s
    rfl
  · intro s code h
    simp [healthCheckServer, Server.SetAlive, h]
  · intro s
    rfl

/-- Witness for C4: a dead backend probed with a 200 response becomes
alive; a live backend probed with a 404 response or a transport failure
becomes dead. -/
theorem healthCheck_liveness_from_outcome_witness :
    (healthCheckServer serverH0Dead (ProbeOutcome.response 200)).alive = true
  ∧ (healthCheckServer serverH0 (ProbeOutcome.response 404)).alive = false
  ∧ (healthCheckServer serverH0 ProbeOutcome.transportFailure).alive = false :=
  ⟨healthCheck_liveness_from_outcome.2.2.2.1 serverH0Dead,
   healthCheck_liveness_from_outcome.2.2.1 serverH0 404 (by decide),
   healthCheck_liveness_from_outcome.2.1 serverH0⟩

/-- Counterexample to C5 as stated: the base variant's
`ScheduleHealthChecks` (src/main.go lines 153-163) runs `HealthCheck` only
inside the ticker loop, so before the first interval elapses (zero ticker
events) it has run zero probe cycles — there is no immediate first cycle. -/
theorem scheduleHealthChecks_no_initial_cycle_counterexample :
    scheduleHealthChecksCyclesBase 0 = 0
  ∧ ¬ 1 ≤ scheduleHealthChecksCyclesBase 0 := by
  exact ⟨rfl, by decide⟩

/-- Claim C5 (amended): the stats variant's `ScheduleHealthChecks` runs an
immediate first probe cycle before the first interval elapses and one
further cycle per tick; the base variant runs no initial cycle — its first
cycle runs only when the first ticker event fires, one cycle per tick. -/
theorem scheduleHealthChecks_cycles :
    scheduleHealthChecksCyclesStats 0 = 1
  ∧ 1 ≤ scheduleHealthChecksCyclesStats 0
  ∧ (∀ k, scheduleHealthChecksCyclesStats (k + 1) = scheduleHealthChecksCyclesStats k + 1)
  ∧ (∀ k, scheduleHealthChecksCyclesBase k = k)
  ∧ (∀ k, scheduleHealthChecksCyclesBase (k + 1) = scheduleHealthChecksCyclesBase k + 1) :=
  ⟨rfl, by decide, fun _ => rfl, fun _ => rfl, fun _ => rfl⟩

/-! ## Dispatch (C6, C7, C10) -/

lemma serveHTTP_stats_branch (lb : LoadBalancer) (r : HttpRequest)
    (transport : OutboundRequest → TransportResult) (hpath : r.path = statsPath) :
    ServeHTTP lb r transport
      = { response := handleStats lb, lb := lb, outboundCalls := [] } := by
  unfold ServeHTTP
  rw [if_pos hpath]

lemma serveHTTP_none_branch (lb : LoadBalancer) (r : HttpRequest)
    (transport : OutboundRequest → TransportResult) (hpath : r.path ≠ statsPath)
    (hsel : (NextServer lb).1 = none) :
    ServeHTTP lb r transport
      = { response := noServersResponse, lb := (NextServer lb).2, outboundCalls := [] } := by
  unfold ServeHTTP
  rw [if_neg hpath]
  rcases hNS : NextServer lb with ⟨o, lb1⟩
  rw [hNS] at hsel
  replace hsel : o = none := hsel
  subst hsel
  rfl

lemma serveHTTP_dispatch (lb : LoadBalancer) (r : HttpRequest)
    (transport : OutboundRequest → TransportResult) (i : Nat)
    (hpath : r.path ≠ statsPath) (hsel : (NextServer lb).1 = some i) :
    ServeHTTP lb r transport =
      match transport (buildOutbound ((NextServer lb).2.servers.getD i default) r) with
      | TransportResult.failure msg =>
        { response := badGatewayResponse msg
          lb := { (NextServer lb).2 with
            totalRequests := (NextServer lb).2.totalRequests + 1
            serverStats := bumpStat (NextServer lb).2.serverStats
              (((NextServer lb).2.servers.getD i default).host) }
          outboundCalls := [buildOutbound ((NextServer lb).2.servers.getD i default) r] }
      | TransportResult.success resp =>
        { response :=
            { statusCode := resp.statusCode, headers := resp.headers, body := resp.body }
          lb := { (NextServer lb).2 with
            totalRequests := (NextServer lb).2.totalRequests + 1
            serverStats := bumpStat (NextServer lb).2.serverStats
              (((NextServer lb).2.servers.getD i default).host) }
          outboundCalls := [buildOutbound ((NextServer lb).2.servers.getD i default) r] } := by
  unfold ServeHTTP
  rw [if_neg hpath]
  rcases hNS : NextServer lb with ⟨o, lb1⟩
  rw [hNS] at hsel
  replace hsel : o = some i := hsel
  subst hsel
  rfl

lemma getD_of_get? (l : List Server) (i : Nat) (s : Server)
    (h : l.get? i = some s) : l.getD i default = s := by
  rw [List.getD_eq_getD_get?, h]
  rfl

/-- Claim C6: when the outbound call to the selected backend fails at the
transport level, the dispatcher responds 502 to the caller, sends exactly
one outbound request (no retry against another backend), and leaves every
backend's liveness flag unchanged. -/
theorem serveHTTP_transport_failure_502 (lb : LoadBalancer) (r : HttpRequest)
    (msg : String) (i : Nat)
    (hpath : r.path ≠ statsPath)
    (hsel : (NextServer lb).1 = some i) :
    (ServeHTTP lb r (fun _ => TransportResult.failure msg)).response.statusCode = 502
  ∧ (ServeHTTP lb r (fun _ => TransportResult.failure msg)).outboundCalls.length = 1
  ∧ (ServeHTTP lb r (fun _ => TransportResult.failure msg)).lb.servers.map Server.IsAlive
      = lb.servers.map Server.IsAlive := by
  rw [serveHTTP_dispatch lb r (fun _ => TransportResult.failure msg) i hpath hsel]
  exact ⟨rfl, rfl, rfl⟩

/-- Witness for C6 at a concrete state: three live backends, a request for
`/res`, a transport that refuses the connection. -/
theorem serveHTTP_transport_failure_502_witness :
    (ServeHTTP lbBase3 reqSample
        (fun _ => TransportResult.failure msgRefused)).response.statusCode = 502
  ∧ (ServeHTTP lbBase3 reqSample
        (fun _ => TransportResult.failure msgRefused)).outboundCalls.length = 1
  ∧ (ServeHTTP lbBase3 reqSample
        (fun _ => TransportResult.failure msgRefused)).lb.servers.map Server.IsAlive
      = lbBase3.servers.map Server.IsAlive :=
  serveHTTP_transport_failure_502 lbBase3 reqSample msgRefused 1 (by decide) (by decide)

/-- Claim C7: for every dispatched request, the single outbound request has
the selected backend's scheme and host, the inbound path and raw query
verbatim, the inbound method and body unchanged, and the full flattened
list of inbound header pairs (multi-values appended value by value, never
overwritten). -/
theorem serveHTTP_forwarding_fidelity (lb : LoadBalancer) (r : HttpRequest)
    (transport : OutboundRequest → TransportResult) (i : Nat) (s : Server)
    (hpath : r.path ≠ statsPath)
    (hsel : (NextServer lb).1 = some i)
    (hs : lb.servers.get? i = some s) :
    (ServeHTTP lb r transport).outboundCalls
      = [{ scheme := s.scheme, host := s.host, path := r.path, rawQuery := r.rawQuery,
           method := r.method, headers := r.headers, body := r.body }] := by
  have hgetD : (NextServer lb).2.servers.getD i default = s := by
    rw [nextServer_preserves_servers]
    exact getD_of_get? lb.servers i s hs
  rw [serveHTTP_dispatch lb r transport i hpath hsel]
  cases htr : transport (buildOutbound ((NextServer lb).2.servers.getD i default) r) with
  | failure msg =>
    rw [hgetD]
    rfl
  | success resp =>
    rw [hgetD]
    rfl

/-- Witness for C7 at a concrete state: the stats variant's initial
3-backend registry (first selection is index 0), a request with a
multi-valued header. -/
theorem serveHTTP_forwarding_fidelity_witness :
    (ServeHTTP lbStats3 reqSample
        (fun _ => TransportResult.failure msgRefused)).outboundCalls
      = [{ scheme := serverH0.scheme, host := serverH0.host, path := reqSample.path,
           rawQuery := reqSample.rawQuery, method := reqSample.method,
           headers := reqSample.headers, body := reqSample.body }] :=
  serveHTTP_forwarding_fidelity lbStats3 reqSample
    (fun _ => TransportResult.failure msgRefused) 0 serverH0
    (by decide) (by decide) (by decide)

lemma sumStats_bumpStat (stats : List (String × Nat)) (host : String) :
    sumStats (bumpStat stats host) = sumStats stats + 1 := by
  induction stats with
  | nil => rfl
  | cons p rest ih =>
    obtain ⟨h, cnt⟩ := p
    by_cases he : h = host
    · simp only [bumpStat, if_pos he, sumStats, List.map_cons, List.sum_cons]
      simp only [sumStats] at *
      omega
    · simp only [bumpStat, if_neg he, sumStats, List.map_cons, List.sum_cons]
      simp only [sumStats] at ih
      omega

/-- Claim C10: the total request counter equals the sum of the per-backend
request counters: it holds at construction (both zero), is preserved by
every `ServeHTTP` invocation (both counters are incremented together,
exactly once, after a successful selection), and is untouched by health
probing. -/
theorem stats_total_equals_sum (servers : List Server) (path : String) :
    StatsInv (mkLoadBalancerStats servers path)
  ∧ (∀ (lb : LoadBalancer) (r : HttpRequest)
      (transport : OutboundRequest → TransportResult),
      StatsInv lb → StatsInv (ServeHTTP lb r transport).lb)
  ∧ (∀ (lb : LoadBalancer) (outcomes : List ProbeOutcome),
      StatsInv lb → StatsInv (HealthCheckLB lb outcomes)) := by
  refine ⟨rfl, ?_, ?_⟩
  · intro lb r transport hinv
    by_cases hpath : r.path = statsPath
    · rw [serveHTTP_stats_branch lb r transport hpath]
      exact hinv
    · cases hsel : (NextServer lb).1 with
      | none =>
        rw [serveHTTP_none_branch lb r transport hpath hsel]
        exact hinv
      | some i =>
        rw [serveHTTP_dispatch lb r transport i hpath hsel]
        cases htr : transport (buildOutbound ((NextServer lb).2.servers.getD i default) r) with
        | failure msg =>
          show (NextServer lb).2.totalRequests + 1
            = sumStats (bumpStat (NextServer lb).2.serverStats
                (((NextServer lb).2.servers.getD i default).host))
          rw [sumStats_bumpStat]
          exact congrArg (· + 1) hinv
        | success resp =>
          show (NextServer lb).2.totalRequests + 1
            = sumStats (bumpStat (NextServer lb).2.serverStats
                (((NextServer lb).2.servers.getD i default).host))
          rw [sumStats_bumpStat]
          exact congrArg (· + 1) hinv
  · intro lb outcomes hinv
    exact hinv

/-- Witness for C10: the invariant holds after dispatching a request from
the stats variant's initial state. -/
theorem stats_total_equals_sum_witness :
    StatsInv (ServeHTTP (mkLoadBalancerStats servers3 rootPath) reqSample
      (fun _ => TransportResult.failure msgRefused)).lb :=
  (stats_total_equals_sum servers3 rootPath).2.1 (mkLoadBalancerStats servers3 rootPath)
    reqSample (fun _ => TransportResult.failure msgRefused) rfl

end MyOwnLB
